import Mathlib

/-!
Verification of the thumbnailify freedesktop thumbnail-cache manager.

This file shallowly embeds the cache protocol and generation pipeline of the
repository: paths are component lists, PNG artifacts are records carrying their
ancillary text chunks, filesystem reads are explicit inputs, and filesystem
writes are recorded as an operation trace.  Machine integers are modelled as
`Nat`/`Int`; the `f32` arithmetic of the resizer is modelled exactly over `ℚ`
with round-half-away-from-zero (for nonnegative inputs, round half up).
External collaborators that the code treats as pure functions (the MD5 hasher,
the pixel resampler, MIME probing) are taken as function parameters.
-/

/-- A character-class helper: the ASCII decimal digit for `d < 10`. -/
def digitChar (d : Nat) : Char := Char.ofNat (48 + d)

/-- The decimal value of an ASCII digit character, `none` for anything else.
Mirrors the per-character acceptance of Rust `str::parse::<u64>`. -/
def charDigit (c : Char) : Option Nat :=
  if c = Char.ofNat 48 then some 0
  else if c = Char.ofNat 49 then some 1
  else if c = Char.ofNat 50 then some 2
  else if c = Char.ofNat 51 then some 3
  else if c = Char.ofNat 52 then some 4
  else if c = Char.ofNat 53 then some 5
  else if c = Char.ofNat 54 then some 6
  else if c = Char.ofNat 55 then some 7
  else if c = Char.ofNat 56 then some 8
  else if c = Char.ofNat 57 then some 9
  else none

/-- Accumulating decimal evaluation of a character list; `none` as soon as a
non-digit appears. -/
def digitsVal : List Char → Nat → Option Nat
  | [], acc => some acc
  | c :: cs, acc =>
    match charDigit c with
    | some d => digitsVal cs (10 * acc + d)
    | none => none

/-- Fuel-driven decimal printer (the fuel makes the recursion structural; any
fuel above the number itself is enough). -/
def natDecAux : Nat → Nat → List Char → List Char
  | 0, _, acc => acc
  | f + 1, n, acc =>
    if n < 10 then digitChar n :: acc
    else natDecAux f (n / 10) (digitChar (n % 10) :: acc)

/-- Decimal rendering of a natural number, as produced by Rust `u64: Display`
(`to_string`). -/
def natDec (n : Nat) : String := String.mk (natDecAux (n + 1) n [])

/-- Rust `str::parse::<u64>`: an optional leading plus sign, then a nonempty
run of decimal digits, rejecting values at or above `2 ^ 64`. -/
def parseU64 (s : String) : Option Nat :=
  let l :=
    match s.data with
    | c :: rest => if c = Char.ofNat 43 then rest else c :: rest
    | [] => []
  match l with
  | [] => none
  | _ =>
    match digitsVal l 0 with
    | some v => if v < 2 ^ 64 then some v else none
    | none => none

theorem digitsVal_append (l1 l2 : List Char) (a : Nat) :
    digitsVal (l1 ++ l2) a =
      match digitsVal l1 a with
      | some v => digitsVal l2 v
      | none => none := by
  induction l1 generalizing a with
  | nil => simp [digitsVal]
  | cons c cs ih =>
    simp only [List.cons_append, digitsVal]
    cases charDigit c with
    | some d => simp [ih]
    | none => rfl

theorem charDigit_digitChar (d : Nat) (hd : d < 10) :
    charDigit (digitChar d) = some d := by
  interval_cases d <;> decide

theorem digitChar_ne_plus (d : Nat) (hd : d < 10) :
    ¬ digitChar d = Char.ofNat 43 := by
  interval_cases d <;> decide

theorem natDecAux_val (f : Nat) :
    ∀ n acc, n < f → digitsVal (natDecAux f n acc) 0 = digitsVal acc n := by
  induction f with
  | zero => intro n acc h; omega
  | succ f ih =>
    intro n acc hn
    by_cases h10 : n < 10
    · simp only [natDecAux, if_pos h10, digitsVal, charDigit_digitChar n h10]
      norm_num
    · have hdiv : n / 10 < f := by
        have h1 : n / 10 < n := Nat.div_lt_self (by omega) (by omega)
        omega
      simp only [natDecAux, if_neg h10]
      rw [ih (n / 10) (digitChar (n % 10) :: acc) hdiv]
      simp only [digitsVal, charDigit_digitChar (n % 10) (Nat.mod_lt n (by omega))]
      congr 1
      omega

theorem natDecAux_shape (f : Nat) :
    ∀ n acc, n < f → ∃ d rest, natDecAux f n acc = digitChar d :: rest ∧ d < 10 := by
  induction f with
  | zero => intro n acc h; omega
  | succ f ih =>
    intro n acc hn
    by_cases h10 : n < 10
    · exact ⟨n, acc, by simp [natDecAux, if_pos h10], h10⟩
    · have hdiv : n / 10 < f := by
        have h1 : n / 10 < n := Nat.div_lt_self (by omega) (by omega)
        omega
      simpa only [natDecAux, if_neg h10] using ih (n / 10) (digitChar (n % 10) :: acc) hdiv

theorem parseU64_natDec (n : Nat) (h : n < 2 ^ 64) : parseU64 (natDec n) = some n := by
  obtain ⟨d, rest, hshape, hd⟩ := natDecAux_shape (n + 1) n [] (Nat.lt_succ_self n)
  have hval : digitsVal (natDecAux (n + 1) n []) 0 = some n :=
    natDecAux_val (n + 1) n [] (Nat.lt_succ_self n)
  rw [hshape] at hval
  simp only [parseU64, natDec, hshape, if_neg (digitChar_ne_plus d hd)]
  simp only [hval]
  rw [if_pos h]

/-! ## Data model: PNG artifacts, file metadata, paths, the filesystem -/

/-- One ancillary Latin-1 text chunk of a PNG file (`png::text_metadata`). -/
structure PngText where
  keyword : String
  text : String
deriving DecidableEq

/-- A decoded PNG artifact: RGBA8 raster plus its uncompressed Latin-1 text
chunks, in file order. -/
structure PngFile where
  width : Nat
  height : Nat
  pixels : List (Nat × Nat × Nat × Nat)
  texts : List PngText
deriving DecidableEq

/-- Contents of a file in the model: a decodable PNG, a zero-byte file, or
bytes that do not decode as PNG. -/
inductive FileData where
  | png (f : PngFile)
  | empty
  | raw (tag : String)
deriving DecidableEq

/-- The slice of `std::fs::Metadata` the code consults: the modification time
as whole seconds relative to the Unix epoch (`none` when `modified()` errors),
and the length in bytes. -/
structure Meta where
  modified : Option Int
  len : Nat
deriving DecidableEq

/-- `SystemTime::duration_since(UNIX_EPOCH).unwrap_or_default().as_secs()`:
a pre-epoch time yields the zero duration. -/
def epochSecs (t : Int) : Nat := if t < 0 then 0 else t.toNat

/-- A filesystem path, as `PathBuf` models it: an absolute flag plus the list
of normal components. -/
structure FsPath where
  absolute : Bool
  components : List String
deriving DecidableEq

/-- `Path::join` with a single normal component. -/
def FsPath.child (p : FsPath) (c : String) : FsPath :=
  ⟨p.absolute, p.components ++ [c]⟩

/-- `Path::parent`, for the nonempty paths the code builds. -/
def FsPath.parent (p : FsPath) : FsPath :=
  ⟨p.absolute, p.components.dropLast⟩

/-- `Path::file_name` (last component), `""` when there is none, matching the
`unwrap_or("")` at the use site. -/
def FsPath.fileName (p : FsPath) : String := (p.components.getLast?).getD ""

/-- `Path::display`/`to_str` on the model. -/
def pathToString (p : FsPath) : String :=
  (if p.absolute then "/" else "") ++ String.intercalate "/" p.components

/-- Split a character list at every occurrence of a separator (the pieces, in
order, possibly empty — the semantics of `str::split`). -/
def splitChar (sep : Char) : List Char → List (List Char)
  | [] => [[]]
  | c :: rest =>
    if c = sep then [] :: splitChar sep rest
    else
      match splitChar sep rest with
      | h :: t => (c :: h) :: t
      | [] => [[c]]

/-- `PathBuf::from` on a raw string: absolute iff it starts with a slash;
empty components (repeated separators) are dropped, as `components()` does. -/
def stringToPath (s : String) : FsPath :=
  ⟨(match s.data with
    | c :: _ => c = Char.ofNat 47
    | [] => false),
   ((splitChar (Char.ofNat 47) s.data).map String.mk).filter (fun c => ¬ c = "")⟩

/-- The filesystem as the code observes it: file contents by path, and
`std::fs::metadata` results for path-typed queries. -/
structure Fs where
  files : List (FsPath × FileData)
  metaOf : FsPath → Option Meta

/-- Look up the contents at a path (`File::open` succeeding iff `some`). -/
def Fs.lookup (fs : Fs) (p : FsPath) : Option FileData :=
  (fs.files.find? (fun q => q.1 = p)).map (fun q => q.2)

/-- `Path::exists` on the model. -/
def Fs.existsb (fs : Fs) (p : FsPath) : Bool := (fs.lookup p).isSome

/-- `png::Decoder::read_info` on the contents at a path: only a stored PNG
decodes. -/
def Fs.readPng (fs : Fs) (p : FsPath) : Option PngFile :=
  match fs.lookup p with
  | some (.png f) => some f
  | _ => none

/-- Overwrite (or create) the file at a path. -/
def Fs.write (fs : Fs) (p : FsPath) (d : FileData) : Fs :=
  { fs with files := (p, d) :: fs.files }

/-- Unlink the file at a path. -/
def Fs.remove (fs : Fs) (p : FsPath) : Fs :=
  { fs with files := fs.files.filter (fun q => ¬ q.1 = p) }

/-- The filesystem side effects the generation pipeline performs, in program
order.  A child-process invocation is recorded with its substituted argv; what
the child writes at the temp path is supplied by the environment, not the
trace. -/
inductive Op where
  | mkdirAll (dir : FsPath)
  | tempCreate (p : FsPath)
  | runHelper (argv : List String)
  | removeTemp (p : FsPath)
  | createWrite (p : FsPath) (d : FileData)
  | createEmpty (p : FsPath)
  | rename (src dst : FsPath)
deriving DecidableEq

/-- Replay a single recorded operation against the model filesystem. -/
def applyOp (fs : Fs) : Op → Fs
  | .mkdirAll _ => fs
  | .runHelper _ => fs
  | .tempCreate p => fs.write p .empty
  | .removeTemp p => fs.remove p
  | .createWrite p d => fs.write p d
  | .createEmpty p => fs.write p .empty
  | .rename src dst =>
    match fs.lookup src with
    | some d => (fs.remove src).write dst d
    | none => fs

/-- Replay a trace of operations. -/
def applyOps (fs : Fs) (ops : List Op) : Fs := ops.foldl applyOp fs

/-! ## Provenance lookup and the freshness validator

`is_thumbnail_up_to_date` appears verbatim in `src/thumbnailer.rs`,
`thumbnailify/src/thumbnail.rs` and `libthumbnailer/src/thumbnail.rs`; one
embedding serves all three.  Its two I/O actions (decoding the thumbnail PNG
and statting the source) are the two inputs. -/

/-- `texts.iter().find(|c| c.keyword == k)`, projected to the chunk text. -/
def findChunk (texts : List PngText) (k : String) : Option String :=
  (texts.find? (fun c => c.keyword = k)).map (fun c => c.text)

/-- The freshness validator `is_thumbnail_up_to_date(thumb_path, source_path)`:
`thumb` is the decode result of the thumbnail file, `src` the metadata of the
source. -/
def is_thumbnail_up_to_date (thumb : Option PngFile) (src : Option Meta) : Bool :=
  match thumb with
  | none => false
  | some png =>
    match findChunk png.texts "Thumb::MTime" with
    | none => false
    | some ms =>
      let thumbMtime := (parseU64 ms).getD 0
      match src with
      | none => false
      | some m =>
        match m.modified with
        | none => false
        | some t =>
          let srcSecs := epochSecs t
          if thumbMtime ≠ srcSecs then false
          else
            match findChunk png.texts "Thumb::Size" with
            | some ss => if (parseU64 ss).getD 0 ≠ m.len then false else true
            | none => true

/-- The amended freshness rule, stated the way the (corrected) spec sentence
reads: the thumbnail decodes, carries a `Thumb::MTime` chunk, the source can
be statted with a readable mtime, the chunk value — an unparseable chunk
coerced to 0 — equals the source mtime in whole seconds (pre-epoch coerced
to 0), and any `Thumb::Size` chunk — unparseable likewise coerced to 0 —
equals the source length. -/
def fresh_spec (thumb : Option PngFile) (src : Option Meta) : Prop :=
  ∃ png, thumb = some png ∧
    ∃ ms, findChunk png.texts "Thumb::MTime" = some ms ∧
      ∃ m, src = some m ∧
        ∃ t, m.modified = some t ∧
          (parseU64 ms).getD 0 = epochSecs t ∧
          (∀ ss, findChunk png.texts "Thumb::Size" = some ss →
            (parseU64 ss).getD 0 = m.len)

/-- C1 (counterexample): a thumbnail whose `Thumb::MTime` chunk is the
non-numeric text `"abc"` validates as fresh against a source whose mtime is
the Unix epoch, because `parse::<u64>().unwrap_or(0)` coerces the chunk to 0 —
the claim says the validator must return false for every unparseable
`Thumb::MTime` regardless of the source mtime. -/
theorem c1_counterexample :
    is_thumbnail_up_to_date
      (some ⟨1, 1, [(0, 0, 0, 0)], [⟨"Thumb::MTime", "abc"⟩]⟩)
      (some ⟨some 0, 5⟩) = true := by
  decide

/-- C1 (amended): the validator returns true exactly under the coerced
freshness rule: the thumbnail opens and decodes, a `Thumb::MTime` chunk
exists, source metadata and mtime are obtainable, the chunk value with parse
failures coerced to 0 equals the source mtime in whole seconds (pre-epoch
coerced to 0), and any `Thumb::Size` chunk with parse failures coerced to 0
equals the source length. -/
theorem c1_freshness_characterization (thumb : Option PngFile) (src : Option Meta) :
    is_thumbnail_up_to_date thumb src = true ↔ fresh_spec thumb src := by
  constructor
  · intro h
    cases thumb with
    | none => simp [is_thumbnail_up_to_date] at h
    | some png =>
      cases hms : findChunk png.texts "Thumb::MTime" with
      | none => simp [is_thumbnail_up_to_date, hms] at h
      | some ms =>
        cases src with
        | none => simp [is_thumbnail_up_to_date, hms] at h
        | some m =>
          cases hmod : m.modified with
          | none => simp [is_thumbnail_up_to_date, hms, hmod] at h
          | some t =>
            refine ⟨png, rfl, ms, hms, m, rfl, t, hmod, ?_, ?_⟩
            · by_contra hne
              simp [is_thumbnail_up_to_date, hms, hmod, hne] at h
            · intro ss hss
              by_contra hne
              have heq : (parseU64 ms).getD 0 = epochSecs t := by
                by_contra hne2
                simp [is_thumbnail_up_to_date, hms, hmod, hne2] at h
              simp [is_thumbnail_up_to_date, hms, hmod, heq, hss, hne] at h
  · rintro ⟨png, rfl, ms, hms, m, rfl, t, hmod, heq, hsize⟩
    simp only [is_thumbnail_up_to_date, hms, hmod, heq]
    cases hss : findChunk png.texts "Thumb::Size" with
    | none => simp
    | some ss => simp [hsize ss hss]

/-! ## File URIs and the fingerprint hash

`Url::from_file_path` (the `url` crate) succeeds only on absolute paths,
percent-encoding each component; the MD5 hasher itself is an out-of-scope
collaborator passed as a function. -/

/-- Hex digit (uppercase) for a nibble. -/
def hexChar (n : Nat) : Char := if n < 10 then Char.ofNat (48 + n) else Char.ofNat (55 + n)

/-- Bytes that survive percent-encoding unescaped (unreserved set). -/
def byteSafe (b : Nat) : Bool :=
  decide ((48 ≤ b ∧ b ≤ 57) ∨ (65 ≤ b ∧ b ≤ 90) ∨ (97 ≤ b ∧ b ≤ 122) ∨
    b = 45 ∨ b = 46 ∨ b = 95 ∨ b = 126)

/-- Percent-encode one byte. -/
def encodeByte (b : Nat) : List Char :=
  if byteSafe b then [Char.ofNat b] else [Char.ofNat 37, hexChar (b / 16), hexChar (b % 16)]

/-- The UTF-8 bytes of one scalar value. -/
def utf8Bytes (c : Char) : List Nat :=
  let n := c.toNat
  if n < 128 then [n]
  else if n < 2048 then [192 + n / 64, 128 + n % 64]
  else if n < 65536 then [224 + n / 4096, 128 + (n / 64) % 64, 128 + n % 64]
  else [240 + n / 262144, 128 + (n / 4096) % 64, 128 + (n / 64) % 64, 128 + n % 64]

/-- Percent-encode one path segment (UTF-8 byte-wise). -/
def encodeSeg (s : String) : List Char :=
  (s.data.flatMap utf8Bytes).foldl (fun acc b => acc ++ encodeByte b) []

/-- The `file://` scheme characters. -/
def fileScheme : List Char :=
  ['f', 'i', 'l', 'e', ':', Char.ofNat 47, Char.ofNat 47]

/-- The encoded URL path: a slash before each encoded component. -/
def encodePath (comps : List String) : List Char :=
  comps.foldl (fun acc c => acc ++ Char.ofNat 47 :: encodeSeg c) []

/-- `Url::from_file_path(...).map(|u| u.to_string())`: defined exactly on
absolute paths. -/
def url_from_file_path (p : FsPath) : Option String :=
  if p.absolute then some (String.mk (fileScheme ++ encodePath p.components)) else none

/-- `get_file_uri` of `src/file.rs` (input is a `&Path`): canonicalize with
fallback to the raw path, then form the file URL. -/
def get_file_uri (canonicalize : FsPath → Option FsPath) (input : FsPath) : Option String :=
  url_from_file_path ((canonicalize input).getD input)

/-- `get_file_uri` of `thumbnailify/src/file.rs` (input is a `&str`):
canonicalize with fallback to `PathBuf::from(input)`, then form the file URL;
`none` is the typed error branch. -/
def get_file_uri_str (canonicalize : String → Option FsPath) (input : String) : Option String :=
  url_from_file_path ((canonicalize input).getD (stringToPath input))

/-- `compute_hash` of `thumbnailify/src/hash.rs`: canonicalize the input
string with fallback to the raw path, then `Url::from_file_path(..).expect(..)`
— `none` models the `expect` panic — and hash the URL string. -/
def compute_hash (canonicalize : String → Option FsPath) (md5 : String → String)
    (input : String) : Option String :=
  match url_from_file_path ((canonicalize input).getD (stringToPath input)) with
  | some u => some (md5 u)
  | none => none

/-- `compute_hash` of `src/hash.rs` (the root crate): a pure hash of the
given string, no path handling and no panic. -/
def compute_hash_root (md5 : String → String) (input : String) : String := md5 input

theorem url_from_file_path_eq (p : FsPath) (u : String)
    (h : url_from_file_path p = some u) :
    p.absolute = true ∧ u = String.mk (fileScheme ++ encodePath p.components) := by
  by_cases habs : p.absolute
  · refine ⟨habs, ?_⟩
    simp only [url_from_file_path, if_pos habs, Option.some.injEq] at h
    exact h.symm
  · simp [url_from_file_path, habs] at h

/-- C10: the thumbnailify `compute_hash` panics (the `expect` branch, modelled
as `none`) for every input string that the filesystem cannot canonicalize and
that is not an absolute path; the strings `get_file_uri` produces — the very
strings `create_thumbnails` feeds to `compute_hash` — start with `file://`,
hence are never absolute paths, so the panic is reached whenever
canonicalization of the URI string fails. -/
theorem c10_compute_hash_panics
    (canon canon2 : String → Option FsPath) (md5 : String → String)
    (input uri : String)
    (hget : get_file_uri_str canon input = some uri)
    (hcanon2 : canon2 uri = none) :
    (stringToPath uri).absolute = false ∧ compute_hash canon2 md5 uri = none := by
  obtain ⟨habs, hu⟩ := url_from_file_path_eq _ _ hget
  have hnotabs : (stringToPath uri).absolute = false := by
    subst hu
    simp [stringToPath, fileScheme]
  refine ⟨hnotabs, ?_⟩
  simp [compute_hash, hcanon2, url_from_file_path, hnotabs]

/-- C10 witness: the concrete URI `file:///a` produced for the absolute input
path `/a` triggers the panic branch when it cannot be canonicalized. -/
theorem c10_witness :
    get_file_uri_str (fun _ => none) "/a" = some "file:///a" ∧
    (stringToPath "file:///a").absolute = false ∧
    compute_hash (fun _ => none) (fun s => s) "file:///a" = none := by
  refine ⟨by decide, ?_, ?_⟩
  · exact (c10_compute_hash_panics (fun _ => none) (fun _ => none) (fun s => s)
      "/a" "file:///a" (by decide) rfl).1
  · exact (c10_compute_hash_panics (fun _ => none) (fun _ => none) (fun s => s)
      "/a" "file:///a" (by decide) rfl).2

/-! ## The in-process resizer

`generate_thumbnail(img, max_dimension)` of `thumbnailify/src/thumbnail.rs`
and `libthumbnailer/src/thumbnail.rs`.  The `f32` scale arithmetic is modelled
exactly over `ℚ`; `f32::round` rounds half away from zero, which on the
nonnegative values arising here is round half up. -/

/-- `f32::round` for nonnegative inputs, then the `as u32` cast. -/
def roundHalfUp (q : ℚ) : ℤ := ⌊q + 1 / 2⌋

/-- The destination dimensions the resizer computes: `none` is the
zero-dimension `BadImage` rejection, otherwise
`round(w * (maxDim / max w h))` per side. -/
def generate_thumbnail_dims (w h maxDim : Nat) : Option (Nat × Nat) :=
  if w = 0 || h = 0 then none
  else
    let L : ℚ := (max w h : Nat)
    let scale : ℚ := (maxDim : ℚ) / L
    some ((roundHalfUp ((w : ℚ) * scale)).toNat, (roundHalfUp ((h : ℚ) * scale)).toNat)

/-- The resizer itself: destination buffer of the computed dimensions, pixels
produced by the out-of-scope convolution resampler. -/
def generate_thumbnail_img (resample : PngFile → Nat → Nat → List (Nat × Nat × Nat × Nat))
    (img : PngFile) (maxDim : Nat) : Option PngFile :=
  match generate_thumbnail_dims img.width img.height maxDim with
  | none => none
  | some (dw, dh) => some ⟨dw, dh, resample img dw dh, []⟩

theorem roundHalfUp_intCast (n : ℤ) : roundHalfUp (n : ℚ) = n := by
  unfold roundHalfUp
  rw [add_comm, Int.floor_add_int]
  norm_num

theorem roundHalfUp_mono {p q : ℚ} (h : p ≤ q) : roundHalfUp p ≤ roundHalfUp q :=
  Int.floor_le_floor (by linarith)

theorem roundHalfUp_nonneg {q : ℚ} (h : 0 ≤ q) : 0 ≤ roundHalfUp q := by
  have := roundHalfUp_mono h
  rwa [show roundHalfUp 0 = 0 from by unfold roundHalfUp; norm_num] at this

theorem abs_roundHalfUp_sub (q : ℚ) : |(roundHalfUp q : ℚ) - q| ≤ 1 / 2 := by
  have h1 : (roundHalfUp q : ℚ) ≤ q + 1 / 2 := Int.floor_le _
  have h2 : q + 1 / 2 - 1 < roundHalfUp q := Int.sub_one_lt_floor _
  rw [abs_le]
  constructor <;> linarith

theorem dims_spec (w h m : Nat) (hw : 0 < w) (hh : 0 < h) :
    ∃ dw dh, generate_thumbnail_dims w h m = some (dw, dh) ∧
      |(dw : ℚ) - (w : ℚ) * ((m : ℚ) / ((max w h : Nat) : ℚ))| ≤ 1 / 2 ∧
      |(dh : ℚ) - (h : ℚ) * ((m : ℚ) / ((max w h : Nat) : ℚ))| ≤ 1 / 2 ∧
      max dw dh = m := by
  have hw0 : ¬ w = 0 := Nat.pos_iff_ne_zero.mp hw
  have hh0 : ¬ h = 0 := Nat.pos_iff_ne_zero.mp hh
  set L : ℚ := ((max w h : Nat) : ℚ) with hLdef
  have hL : (0 : ℚ) < L := by
    rw [hLdef]
    exact_mod_cast Nat.lt_of_lt_of_le hw (Nat.le_max_left w h)
  have hLne : L ≠ 0 := ne_of_gt hL
  set s : ℚ := (m : ℚ) / L with hsdef
  have hs0 : 0 ≤ s := div_nonneg (by positivity) (le_of_lt hL)
  have hwantW : 0 ≤ (w : ℚ) * s := mul_nonneg (by positivity) hs0
  have hwantH : 0 ≤ (h : ℚ) * s := mul_nonneg (by positivity) hs0
  have hcast : ∀ z : ℤ, 0 ≤ z → ((z.toNat : ℚ)) = (z : ℚ) := by
    intro z hz
    exact_mod_cast Int.toNat_of_nonneg hz
  refine ⟨(roundHalfUp ((w : ℚ) * s)).toNat, (roundHalfUp ((h : ℚ) * s)).toNat, ?_, ?_, ?_, ?_⟩
  · simp [generate_thumbnail_dims, hw0, hh0, hsdef, hLdef]
  · rw [hcast _ (roundHalfUp_nonneg hwantW)]
    exact abs_roundHalfUp_sub _
  · rw [hcast _ (roundHalfUp_nonneg hwantH)]
    exact abs_roundHalfUp_sub _
  · -- the larger side lands exactly on m
    have key : ∀ a b : Nat, a ≤ b → max a b = max w h →
        max (roundHalfUp ((a : ℚ) * s)).toNat (roundHalfUp ((b : ℚ) * s)).toNat = m := by
      intro a b hab hmax
      have hbmax : b = max w h := by omega
      have hbL : (b : ℚ) = L := by rw [hLdef, hbmax]
      have hbv : (b : ℚ) * s = (m : ℚ) := by
        rw [hbL, hsdef, mul_div_cancel₀ _ hLne]
      have hb : roundHalfUp ((b : ℚ) * s) = (m : ℤ) := by
        rw [hbv]
        exact_mod_cast roundHalfUp_intCast (m : ℤ)
      have ha : roundHalfUp ((a : ℚ) * s) ≤ (m : ℤ) := by
        rw [← hb]
        exact roundHalfUp_mono (mul_le_mul_of_nonneg_right (by exact_mod_cast hab) hs0)
      have hbn : (roundHalfUp ((b : ℚ) * s)).toNat = m := by rw [hb]; simp
      have han : (roundHalfUp ((a : ℚ) * s)).toNat ≤ m := by
        omega
      omega
    rcases Nat.le_total w h with hle | hle
    · have := key w h hle (by omega)
      omega
    · have := key h w hle (by omega)
      omega

/-- C7: the in-process resizer rejects zero-dimension sources (the `BadImage`
branch), and for positive dimensions scales by `maxDim / max(w, h)` with
per-side rounding, so each side is within 1/2 of exact scaling and the larger
output side lies between `maxDim - 1` and `maxDim` (it in fact equals
`maxDim`). -/
theorem c7_resize_bounds (w h m : Nat) :
    ((w = 0 ∨ h = 0) → generate_thumbnail_dims w h m = none) ∧
    (0 < w → 0 < h → ∃ dw dh, generate_thumbnail_dims w h m = some (dw, dh) ∧
      |(dw : ℚ) - (w : ℚ) * ((m : ℚ) / ((max w h : Nat) : ℚ))| ≤ 1 / 2 ∧
      |(dh : ℚ) - (h : ℚ) * ((m : ℚ) / ((max w h : Nat) : ℚ))| ≤ 1 / 2 ∧
      m - 1 ≤ max dw dh ∧ max dw dh ≤ m) := by
  constructor
  · intro hz
    rcases hz with hz | hz <;> simp [generate_thumbnail_dims, hz]
  · intro hw hh
    obtain ⟨dw, dh, heq, hbw, hbh, hmax⟩ := dims_spec w h m hw hh
    exact ⟨dw, dh, heq, hbw, hbh, by omega, by omega⟩

/-- C7 witness: the 4019 x 4019 test image at target 128 hits the bounds. -/
theorem c7_witness :
    ∃ dw dh, generate_thumbnail_dims 4019 4019 128 = some (dw, dh) ∧
      |(dw : ℚ) - (4019 : ℚ) * ((128 : ℚ) / ((max 4019 4019 : Nat) : ℚ))| ≤ 1 / 2 ∧
      |(dh : ℚ) - (4019 : ℚ) * ((128 : ℚ) / ((max 4019 4019 : Nat) : ℚ))| ≤ 1 / 2 ∧
      128 - 1 ≤ max dw dh ∧ max dw dh ≤ 128 :=
  (c7_resize_bounds 4019 4019 128).2 (by norm_num) (by norm_num)

/-- C9: no clamp of the scale to 1: when the source's larger side is strictly
below the target dimension the scale exceeds 1 and the output is enlarged, its
larger side equal to the target. -/
theorem c9_upscale_no_clamp (w h m : Nat) (hw : 0 < w) (hh : 0 < h)
    (hsmall : max w h < m) :
    1 < (m : ℚ) / ((max w h : Nat) : ℚ) ∧
    ∃ dw dh, generate_thumbnail_dims w h m = some (dw, dh) ∧
      max dw dh = m ∧ max w h < max dw dh := by
  have hL : (0 : ℚ) < ((max w h : Nat) : ℚ) := by
    exact_mod_cast Nat.lt_of_lt_of_le hw (Nat.le_max_left w h)
  constructor
  · rw [one_lt_div hL]
    exact_mod_cast hsmall
  · obtain ⟨dw, dh, heq, _, _, hmax⟩ := dims_spec w h m hw hh
    exact ⟨dw, dh, heq, hmax, by omega⟩

/-- C9 witness: a 10 x 7 source at target 128 is enlarged to larger side
exactly 128. -/
theorem c9_witness :
    1 < (128 : ℚ) / ((max 10 7 : Nat) : ℚ) ∧
    ∃ dw dh, generate_thumbnail_dims 10 7 128 = some (dw, dh) ∧
      max dw dh = 128 ∧ max 10 7 < max dw dh :=
  c9_upscale_no_clamp 10 7 128 (by norm_num) (by norm_num) (by norm_num)

/-! ## Provenance writers

`src/file.rs`: `write_out_thumbnail` writes the raster with NO text chunks;
`write_failed_thumbnail` writes a 1 x 1 transparent image through it;
`add_thumbnail_metadata` re-encodes a PNG in place, copying its existing
chunks and appending `Software`, `Thumb::URI`, `Thumb::Size`, `Thumb::MTime`
computed from the source.  `thumbnailify/src/file.rs`: `write_out_thumbnail`
writes the raster and the four chunks in one pass. -/

/-- The 1 x 1 fully transparent RGBA8 image of `write_failed_thumbnail`
(`RgbaImage::from_pixel(1, 1, Rgba([0, 0, 0, 0]))`), as written by the root
crate's chunk-free `write_out_thumbnail`. -/
def failMarkerImage : PngFile := ⟨1, 1, [(0, 0, 0, 0)], []⟩

/-- The four chunks appended by both provenance writers, in program order. -/
def provenanceChunks (uri : String) (m : Meta) (t : Int) : List PngText :=
  [⟨"Software", "Thumbnailify"⟩, ⟨"Thumb::URI", uri⟩,
   ⟨"Thumb::Size", natDec m.len⟩, ⟨"Thumb::MTime", natDec (epochSecs t)⟩]

/-- `add_thumbnail_metadata(thumb_path, source_image_path)` of `src/file.rs`:
`content` is what is on disk at `thumb_path`, `uriOfSource` the result of
`get_file_uri(source)`, `srcMeta` the result of `fs::metadata(source)`.
The result is the PNG re-encoded with the appended chunks; `none` collapses
the error exits (not a decodable PNG, URI formation failed, metadata or
`modified()` failed). -/
def add_thumbnail_metadata (uriOfSource : Option String) (srcMeta : Option Meta)
    (content : FileData) : Option PngFile :=
  match content with
  | .png old =>
    match uriOfSource with
    | none => none
    | some uri =>
      match srcMeta with
      | none => none
      | some m =>
        match m.modified with
        | none => none
        | some t => some { old with texts := old.texts ++ provenanceChunks uri m t }
  | _ => none

/-- `write_out_thumbnail` of `thumbnailify/src/file.rs`: one-pass writer that
embeds the four chunks; the stored image is the given raster. -/
def write_out_thumbnail_tfy (uriOfSource : Option String) (srcMeta : Option Meta)
    (img : PngFile) : Option PngFile :=
  match uriOfSource with
  | none => none
  | some uri =>
    match srcMeta with
    | none => none
    | some m =>
      match m.modified with
      | none => none
      | some t => some ⟨img.width, img.height, img.pixels, provenanceChunks uri m t⟩

/-- Modelled from the spec: `write_failed_thumbnail_with_dynamic_image` of the
thumbnailify crate is referenced by `create_thumbnails` but its definition is
not among the provided sources; per spec section 3 the fail marker is a 1 x 1
fully transparent pixel payload carrying the same provenance chunks as a
positive thumbnail, i.e. the one-pass writer applied to the 1 x 1 transparent
image. -/
def write_failed_thumbnail_with_dynamic_image (uriOfSource : Option String)
    (srcMeta : Option Meta) : Option PngFile :=
  write_out_thumbnail_tfy uriOfSource srcMeta failMarkerImage

/-- C8: for sources whose mtime precedes the Unix epoch, the provenance
writer records `Thumb::MTime = "0"` and the freshness validator coerces the
source mtime to 0 as well, so a thumbnail written from one pre-epoch source
validates as fresh against any other pre-epoch mtime of the same length —
the actual pre-epoch timestamps are indistinguishable on the mtime witness. -/
theorem c8_pre_epoch_mtime_coerced (t1 t2 : Int) (len : Nat) (uri : String)
    (w h : Nat) (px : List (Nat × Nat × Nat × Nat))
    (h1 : t1 < 0) (h2 : t2 < 0) (hlen : len < 2 ^ 64) :
    ∃ p2, add_thumbnail_metadata (some uri) (some ⟨some t1, len⟩) (.png ⟨w, h, px, []⟩)
        = some p2 ∧
      findChunk p2.texts "Thumb::MTime" = some "0" ∧
      is_thumbnail_up_to_date (some p2) (some ⟨some t2, len⟩) = true := by
  have hz1 : epochSecs t1 = 0 := by simp [epochSecs, h1]
  have hz2 : epochSecs t2 = 0 := by simp [epochSecs, h2]
  refine ⟨⟨w, h, px, provenanceChunks uri ⟨some t1, len⟩ t1⟩, rfl, ?_, ?_⟩
  · simp [provenanceChunks, findChunk, List.find?, hz1]
    decide
  · have hmt : findChunk (provenanceChunks uri ⟨some t1, len⟩ t1) "Thumb::MTime"
        = some (natDec (epochSecs t1)) := by
      simp [provenanceChunks, findChunk, List.find?]
    have hsz : findChunk (provenanceChunks uri ⟨some t1, len⟩ t1) "Thumb::Size"
        = some (natDec len) := by
      simp [provenanceChunks, findChunk, List.find?]
    simp only [is_thumbnail_up_to_date, hmt, hsz, hz1]
    have hparse0 : parseU64 (natDec 0) = some 0 := parseU64_natDec 0 (by norm_num)
    have hparselen : parseU64 (natDec len) = some len := parseU64_natDec len hlen
    simp [hparse0, hparselen, hz2]

/-- C8 witness: two distinct pre-epoch mtimes (-5 and -3 seconds) with length
7 validate against each other. -/
theorem c8_witness :
    ∃ p2, add_thumbnail_metadata (some "file:///a") (some ⟨some (-5), 7⟩)
        (.png ⟨1, 1, [(0, 0, 0, 0)], []⟩) = some p2 ∧
      findChunk p2.texts "Thumb::MTime" = some "0" ∧
      is_thumbnail_up_to_date (some p2) (some ⟨some (-3), 7⟩) = true :=
  c8_pre_epoch_mtime_coerced (-5) (-3) 7 "file:///a" 1 1 [(0, 0, 0, 0)]
    (by norm_num) (by norm_num) (by norm_num)

/-! ## The command templater

`build_command_args` of `src/thumbnailer.rs` shell-word-splits the Exec line
with `shell_words::split` and then chains five global `str::replace` passes
per token; the `thumbnailify/src/thumbnailer.rs` variant splits on whitespace
only and substitutes the input's basename for `%i`. -/

def chSp : Char := Char.ofNat 32
def chTab : Char := Char.ofNat 9
def chNl : Char := Char.ofNat 10
def chCr : Char := Char.ofNat 13
def chBsl : Char := Char.ofNat 92
def chSq : Char := Char.ofNat 39
def chDq : Char := Char.ofNat 34
def chDollar : Char := Char.ofNat 36
def chBtick : Char := Char.ofNat 96

/-- Does a list start with the given pattern? -/
def begWith : List Char → List Char → Bool
  | [], _ => true
  | _ :: _, [] => false
  | a :: ps, b :: ss => a = b && begWith ps ss

/-- Fuel-driven body of `str::replace`: scan left to right, splice the
replacement at each non-overlapping match of the (nonempty) pattern and
continue after the consumed characters.  (`replace` with an empty pattern is
never used by the code; here it is the identity.) -/
def replaceAux : Nat → List Char → List Char → List Char → List Char
  | 0, _, _, s => s
  | _ + 1, _, _, [] => []
  | f + 1, p, r, c :: rest =>
    if ¬ p = [] ∧ begWith p (c :: rest) = true then
      r ++ replaceAux f p r ((c :: rest).drop p.length)
    else c :: replaceAux f p r rest

/-- `str::replace` on character lists. -/
def listReplace (p r s : List Char) : List Char := replaceAux (s.length + 1) p r s

/-- Rust `s.replace(pat, repl)`. -/
def strReplace (s pat repl : String) : String := String.mk (listReplace pat.data repl.data s.data)

/-- The five chained `replace` calls applied to each token, in program order:
`%%`, `%s`, `%u`, `%i`, `%o`. -/
def substToken (size : Nat) (file_uri inputStr outputStr : String) (tok : String) : String :=
  strReplace (strReplace (strReplace (strReplace (strReplace tok "%%" "%")
    "%s" (natDec size)) "%u" file_uri) "%i" inputStr) "%o" outputStr

/-- States of the `shell_words::split` scanner. -/
inductive ShState where
  | delim | esc | unq | unqEsc | sq | dq | dqEsc

/-- The `shell_words::split` state machine: POSIX-like word splitting with
single quotes, double quotes (in which backslash escapes only dollar,
backtick, double quote, backslash and newline), backslash escapes and
backslash-newline continuations; `none` on an unterminated quote. -/
def shellSplitGo : ShState → List Char → List Char → List (List Char) →
    Option (List (List Char))
  | .delim, [], _, acc => some acc
  | .esc, [], w, acc => some (acc ++ [w ++ [chBsl]])
  | .unq, [], w, acc => some (acc ++ [w])
  | .unqEsc, [], w, acc => some (acc ++ [w ++ [chBsl]])
  | .sq, [], _, _ => none
  | .dq, [], _, _ => none
  | .dqEsc, [], _, _ => none
  | .delim, c :: cs, w, acc =>
    if c = chSq then shellSplitGo .sq cs w acc
    else if c = chDq then shellSplitGo .dq cs w acc
    else if c = chBsl then shellSplitGo .esc cs w acc
    else if c = chSp ∨ c = chTab ∨ c = chNl then shellSplitGo .delim cs w acc
    else shellSplitGo .unq cs (w ++ [c]) acc
  | .esc, c :: cs, w, acc =>
    if c = chNl then shellSplitGo .delim cs w acc
    else shellSplitGo .unq cs (w ++ [c]) acc
  | .unq, c :: cs, w, acc =>
    if c = chSq then shellSplitGo .sq cs w acc
    else if c = chDq then shellSplitGo .dq cs w acc
    else if c = chBsl then shellSplitGo .unqEsc cs w acc
    else if c = chSp ∨ c = chTab ∨ c = chNl then shellSplitGo .delim cs [] (acc ++ [w])
    else shellSplitGo .unq cs (w ++ [c]) acc
  | .unqEsc, c :: cs, w, acc =>
    if c = chNl then shellSplitGo .unq cs w acc
    else shellSplitGo .unq cs (w ++ [c]) acc
  | .sq, c :: cs, w, acc =>
    if c = chSq then shellSplitGo .unq cs w acc
    else shellSplitGo .sq cs (w ++ [c]) acc
  | .dq, c :: cs, w, acc =>
    if c = chDq then shellSplitGo .unq cs w acc
    else if c = chBsl then shellSplitGo .dqEsc cs w acc
    else shellSplitGo .dq cs (w ++ [c]) acc
  | .dqEsc, c :: cs, w, acc =>
    if c = chNl then shellSplitGo .dq cs w acc
    else if c = chDollar ∨ c = chBtick ∨ c = chDq ∨ c = chBsl then
      shellSplitGo .dq cs (w ++ [c]) acc
    else shellSplitGo .dq cs (w ++ [chBsl, c]) acc

/-- `shell_words::split`. -/
def shell_split (s : String) : Option (List String) :=
  (shellSplitGo .delim s.data [] []).map (fun l => l.map String.mk)

/-- Errors of `build_command_args` (root crate): canonicalize/`to_str`
failures surface as Io, `shell_words` failures as Parse. -/
inductive CmdErr where
  | io
  | badParse
deriving DecidableEq

/-- `build_command_args` of `src/thumbnailer.rs`: canonicalize the input,
shell-split the Exec line, then apply the five replaces to every token.
`canonInput` is the `input.canonicalize()` result. -/
def build_command_args (canonInput : Option FsPath) (exec_line : String) (size : Nat)
    (file_uri : String) (output : FsPath) : Except CmdErr (List String) :=
  match canonInput with
  | none => .error .io
  | some full =>
    match shell_split exec_line with
    | none => .error .badParse
    | some toks =>
      .ok (toks.map (substToken size file_uri (pathToString full) (pathToString output)))

/-- Whitespace test of Rust `str::split_whitespace` (ASCII cases). -/
def wsChar (c : Char) : Bool := c = chSp ∨ c = chTab ∨ c = chNl ∨ c = chCr

/-- `str::split_whitespace`: maximal nonempty runs between whitespace. -/
def splitWsGo : List Char → List Char → List (List Char) → List (List Char)
  | [], w, acc => if w = [] then acc else acc ++ [w]
  | c :: cs, w, acc =>
    if wsChar c then
      if w = [] then splitWsGo cs [] acc else splitWsGo cs [] (acc ++ [w])
    else splitWsGo cs (w ++ [c]) acc

/-- `build_command_args` of `thumbnailify/src/thumbnailer.rs`: whitespace
splitting (no quoting) and the same five replaces, with the input's basename
substituted for `%i`. -/
def build_command_args_tfy (exec_line : String) (size : Nat) (file_uri : String)
    (input : FsPath) (output : FsPath) : List String :=
  ((splitWsGo exec_line.data [] []).map String.mk).map
    (substToken size file_uri input.fileName (pathToString output))

instance decEqExcept {ε α : Type} [DecidableEq ε] [DecidableEq α] : DecidableEq (Except ε α)
  | .ok a, .ok b =>
    if h : a = b then .isTrue (by rw [h]) else .isFalse (by intro he; cases he; exact h rfl)
  | .error a, .error b =>
    if h : a = b then .isTrue (by rw [h]) else .isFalse (by intro he; cases he; exact h rfl)
  | .ok _, .error _ => .isFalse (by intro he; cases he)
  | .error _, .ok _ => .isFalse (by intro he; cases he)

theorem replaceAux_nop (q : Char) (ps r : List Char) :
    ∀ f s, (∀ c ∈ s, ¬ c = q) → s.length < f → replaceAux f (q :: ps) r s = s := by
  intro f
  induction f with
  | zero => intro s _ h; omega
  | succ f ih =>
    intro s hnot hlen
    cases s with
    | nil => rfl
    | cons c rest =>
      have hc : ¬ c = q := hnot c (List.mem_cons_self c rest)
      have hbeg : ¬ (¬ (q :: ps) = [] ∧ begWith (q :: ps) (c :: rest) = true) := by
        intro hcontra
        have := hcontra.2
        simp only [begWith, Bool.and_eq_true, decide_eq_true_eq] at this
        exact hc this.1.symm
      simp only [replaceAux, if_neg hbeg]
      rw [ih rest (fun c hc2 => hnot c (List.mem_cons_of_mem _ hc2)) (by simpa using Nat.lt_of_succ_lt_succ hlen)]

theorem listReplace_nop (q : Char) (ps r s : List Char) (hnot : ∀ c ∈ s, ¬ c = q) :
    listReplace (q :: ps) r s = s :=
  replaceAux_nop q ps r (s.length + 1) s hnot (Nat.lt_succ_self _)

theorem natDecAux_digitsOnly (f : Nat) :
    ∀ n acc, (∀ c ∈ acc, ∃ d, d < 10 ∧ c = digitChar d) →
      ∀ c ∈ natDecAux f n acc, ∃ d, d < 10 ∧ c = digitChar d := by
  induction f with
  | zero => intro n acc hacc; exact hacc
  | succ f ih =>
    intro n acc hacc c hc
    by_cases h10 : n < 10
    · simp only [natDecAux, if_pos h10] at hc
      rcases List.mem_cons.mp hc with hc1 | hc1
      · exact ⟨n, h10, hc1⟩
      · exact hacc c hc1
    · simp only [natDecAux, if_neg h10] at hc
      refine ih (n / 10) (digitChar (n % 10) :: acc) ?_ c hc
      intro c2 hc2
      rcases List.mem_cons.mp hc2 with hc3 | hc3
      · exact ⟨n % 10, Nat.mod_lt n (by omega), hc3⟩
      · exact hacc c2 hc3

theorem natDec_no_pct (n : Nat) : ∀ c ∈ (natDec n).data, ¬ c = '%' := by
  intro c hc
  obtain ⟨d, hd, hcd⟩ := natDecAux_digitsOnly (n + 1) n [] (by simp) c hc
  subst hcd
  interval_cases d <;> decide

theorem strReplace_natDec_nop_u (size : Nat) (uri : String) :
    strReplace (natDec size) "%u" uri = natDec size := by
  show String.mk (listReplace ('%' :: ['u']) uri.data (natDec size).data) = natDec size
  rw [listReplace_nop '%' ['u'] uri.data (natDec size).data (natDec_no_pct size)]

theorem strReplace_natDec_nop_i (size : Nat) (i : String) :
    strReplace (natDec size) "%i" i = natDec size := by
  show String.mk (listReplace ('%' :: ['i']) i.data (natDec size).data) = natDec size
  rw [listReplace_nop '%' ['i'] i.data (natDec size).data (natDec_no_pct size)]

theorem strReplace_natDec_nop_o (size : Nat) (o : String) :
    strReplace (natDec size) "%o" o = natDec size := by
  show String.mk (listReplace ('%' :: ['o']) o.data (natDec size).data) = natDec size
  rw [listReplace_nop '%' ['o'] o.data (natDec size).data (natDec_no_pct size)]

theorem substToken_pct_s (size : Nat) (uri i o : String) :
    substToken size uri i o "%s" = natDec size := by
  unfold substToken
  rw [show strReplace "%s" "%%" "%" = "%s" from rfl,
    show strReplace "%s" "%s" (natDec size) = natDec size by
      simp [strReplace, listReplace, replaceAux, begWith],
    strReplace_natDec_nop_u, strReplace_natDec_nop_i, strReplace_natDec_nop_o]

theorem substToken_pct_pct_s (size : Nat) (uri i o : String) :
    substToken size uri i o "%%s" = natDec size := by
  unfold substToken
  rw [show strReplace "%%s" "%%" "%" = "%s" from rfl,
    show strReplace "%s" "%s" (natDec size) = natDec size by
      simp [strReplace, listReplace, replaceAux, begWith],
    strReplace_natDec_nop_u, strReplace_natDec_nop_i, strReplace_natDec_nop_o]

/-- C5 (counterexample): the token `%%s` does not yield the literal `%s` — the
two characters consumed by `%%` ARE re-examined by the later `%s` pass, so
`%%s` yields the decimal size (`"128"` here); moreover the thumbnailify
variant of the templater does not honor quoting at all: a quoted executable
name containing whitespace is split into two argv elements. -/
theorem c5_counterexample :
    build_command_args (some ⟨true, ["i"]⟩) "x %%s" 128 "u" ⟨true, ["o"]⟩
        = .ok ["x", "128"] ∧
    ¬ build_command_args (some ⟨true, ["i"]⟩) "x %%s" 128 "u" ⟨true, ["o"]⟩
        = .ok ["x", "%s"] ∧
    build_command_args_tfy "\"my tool\" -s %s" 128 "u" ⟨true, ["a", "b.pdf"]⟩ ⟨true, ["o"]⟩
        = ["\"my", "tool\"", "-s", "128"] := by
  refine ⟨by decide, by decide, by decide⟩

/-- C5 (amended): the root crate's templater shell-word-splits the Exec line
honoring POSIX-like quoting (a quoted executable name with whitespace stays a
single argv element), then applies five sequential global replaces in the
order `%%`, `%s`, `%u`, `%i`, `%o`, each pass rescanning the output of the
previous one — so `%%s` yields the decimal size, not a literal `%s`; the
thumbnailify crate's variant applies the same five sequential replaces but
splits on whitespace only. -/
theorem c5_amended (size : Nat) (canon : FsPath) (uri : String) (inp out : FsPath) :
    build_command_args (some canon) "\"my tool\" -s %s %%s" size uri out
        = .ok ["my tool", "-s", natDec size, natDec size] ∧
    build_command_args_tfy "\"my tool\" -s %s %%s" size uri inp out
        = ["\"my", "tool\"", "-s", natDec size, natDec size] := by
  constructor
  · have hsplit : shell_split "\"my tool\" -s %s %%s"
        = some ["my tool", "-s", "%s", "%%s"] := by decide
    simp only [build_command_args, hsplit, List.map]
    rw [substToken_pct_s, substToken_pct_pct_s]
    rfl
  · show [substToken size uri (FsPath.fileName inp) (pathToString out) "\"my",
      substToken size uri (FsPath.fileName inp) (pathToString out) "tool\"",
      substToken size uri (FsPath.fileName inp) (pathToString out) "-s",
      substToken size uri (FsPath.fileName inp) (pathToString out) "%s",
      substToken size uri (FsPath.fileName inp) (pathToString out) "%%s"]
      = ["\"my", "tool\"", "-s", natDec size, natDec size]
    rw [substToken_pct_s, substToken_pct_pct_s]
    rfl

/-! ## Helper discovery

`find_thumbnailer` in `src/thumbnailer.rs` (HOME, `XDG_DATA_DIRS`,
`/usr/share/thumbnailers`) and `thumbnailify/src/thumbnailer.rs` (HOME,
`/usr/share/thumbnailers`) share one scan procedure; the directory list and
each directory's state are the environment.  `Ini::load_from_file(&path)?`
propagates a parse failure immediately, as does a missing `Exec` key in a
matching section. -/

/-- Rust `str::trim` (ASCII whitespace cases). -/
def strTrim (s : String) : String :=
  String.mk (((s.data.dropWhile wsChar).reverse.dropWhile wsChar).reverse)

/-- The `MimeType` list: split on `;`, drop blank entries, trim the rest. -/
def parseMimes (mimeList : String) : List String :=
  (((splitChar (Char.ofNat 59) mimeList.data).map String.mk).filter
    (fun s => ¬ strTrim s = "")).map strTrim

/-- `Path::extension` on a bare file name: the part after the last dot, none
when there is no dot or the name is a dot-file with no further dot. -/
def extensionOf (name : String) : Option String :=
  match splitChar (Char.ofNat 46) name.data with
  | [] => none
  | [_] => none
  | first :: rest =>
    if first = [] ∧ rest.length = 1 then none
    else (rest.getLast?).map String.mk

/-- A parsed INI file: sections with their key-value properties, file order. -/
def IniFile := List (String × List (String × String))

/-- `Properties::get` (first matching key). -/
def keyGet (props : List (String × String)) (k : String) : Option String :=
  (props.find? (fun q => q.1 = k)).map (fun q => q.2)

/-- `Ini::section` (first matching section). -/
def sectionGet (ini : IniFile) (sec : String) : Option (List (String × String)) :=
  (ini.find? (fun q => q.1 = sec)).map (fun q => q.2)

/-- One directory entry as the scan sees it: its file name and the result of
`Ini::load_from_file` (`none` models the parse error). -/
structure DirEntry where
  name : String
  ini : Option IniFile

/-- A thumbnailer directory: absent (`is_dir()` false), unreadable
(`read_dir` errors), or readable with entries in scan order. -/
inductive DirState where
  | missing
  | unreadable
  | entries (es : List DirEntry)

/-- `ThumbnailerConfig` parsed from a matching descriptor. -/
structure ThumbnailerConfig where
  try_exec : Option String
  exec_line : String
  mime_types : List String
deriving DecidableEq

/-- The error kinds `find_thumbnailer` surfaces. -/
inductive FindErr where
  | ioErr
  | iniErr
  | missingExec
deriving DecidableEq

/-- The per-directory scan: any `.thumbnailer` entry whose INI does not parse
aborts with an error (the `?` on `Ini::load_from_file`), a matching section
without `Exec` aborts with an error, the first match returns its config. -/
def scanEntries (mime : String) : List DirEntry → Except FindErr (Option ThumbnailerConfig)
  | [] => .ok none
  | e :: rest =>
    if extensionOf e.name = some "thumbnailer" then
      match e.ini with
      | none => .error .iniErr
      | some ini =>
        match sectionGet ini "Thumbnailer Entry" with
        | none => scanEntries mime rest
        | some sec =>
          match keyGet sec "MimeType" with
          | none => scanEntries mime rest
          | some ml =>
            let mimes := parseMimes ml
            if mimes.any (fun m => m = mime) then
              match keyGet sec "Exec" with
              | none => .error .missingExec
              | some ex => .ok (some ⟨keyGet sec "TryExec", ex, mimes⟩)
            else scanEntries mime rest
    else scanEntries mime rest

/-- `find_thumbnailer(mime_type)` over the assembled directory list. -/
def find_thumbnailer (mime : String) : List DirState → Except FindErr (Option ThumbnailerConfig)
  | [] => .ok none
  | d :: rest =>
    match d with
    | .missing => find_thumbnailer mime rest
    | .unreadable => .error .ioErr
    | .entries es =>
      match scanEntries mime es with
      | .error e => .error e
      | .ok (some c) => .ok (some c)
      | .ok none => find_thumbnailer mime rest

/-- C6 (counterexample): an unparseable `.thumbnailer` descriptor placed
before a valid matching descriptor makes `find_thumbnailer` return an error —
the malformed descriptor is NOT skipped even though a later candidate for the
MIME type exists (which, scanned alone, is found). -/
theorem c6_counterexample :
    find_thumbnailer "image/png"
      [.entries [⟨"bad.thumbnailer", none⟩,
                 ⟨"good.thumbnailer", some [("Thumbnailer Entry",
                    [("MimeType", "image/png;"), ("Exec", "conv %i %o")])]⟩]]
      = .error .iniErr ∧
    find_thumbnailer "image/png"
      [.entries [⟨"good.thumbnailer", some [("Thumbnailer Entry",
                    [("MimeType", "image/png;"), ("Exec", "conv %i %o")])]⟩]]
      = .ok (some ⟨none, "conv %i %o", ["image/png"]⟩) := by
  exact ⟨by decide, by decide⟩

/-- C6 (amended): a malformed descriptor ABORTS the scan with an error
instead of being skipped: an unparseable `.thumbnailer` file — even one that
would not match the MIME type — surfaces an INI error immediately, and a
matching section lacking `Exec` surfaces a missing-Exec error immediately, in
both cases regardless of later descriptors or directories. -/
theorem c6_amended (mime name ml : String) (rest : List DirEntry) (dirs2 : List DirState)
    (hext : extensionOf name = some "thumbnailer")
    (hmime : (parseMimes ml).any (fun m => m = mime) = true) :
    find_thumbnailer mime (.entries (⟨name, none⟩ :: rest) :: dirs2) = .error .iniErr ∧
    find_thumbnailer mime
      (.entries (⟨name, some [("Thumbnailer Entry", [("MimeType", ml)])]⟩ :: rest) :: dirs2)
      = .error .missingExec := by
  constructor
  · simp [find_thumbnailer, scanEntries, hext]
  · simp [find_thumbnailer, scanEntries, hext, sectionGet, keyGet, List.find?, hmime]

/-- C6 witness: the aborts happen with a valid matching candidate right after
the malformed descriptor. -/
theorem c6_amended_witness :
    find_thumbnailer "image/png"
      (.entries (⟨"bad.thumbnailer", none⟩ ::
        [⟨"good.thumbnailer", some [("Thumbnailer Entry",
           [("MimeType", "image/png;"), ("Exec", "conv %i %o")])]⟩]) :: []) = .error .iniErr ∧
    find_thumbnailer "image/png"
      (.entries (⟨"bad.thumbnailer", some [("Thumbnailer Entry", [("MimeType", "image/png")])]⟩ ::
        [⟨"good.thumbnailer", some [("Thumbnailer Entry",
           [("MimeType", "image/png;"), ("Exec", "conv %i %o")])]⟩]) :: []) = .error .missingExec :=
  c6_amended "image/png" "bad.thumbnailer" "image/png"
    [⟨"good.thumbnailer", some [("Thumbnailer Entry",
       [("MimeType", "image/png;"), ("Exec", "conv %i %o")])]⟩] []
    (by decide) (by decide)

/-! ## Cache paths and the external-helper orchestrator (root crate)

`generate_thumbnail` of `src/thumbnailer.rs`.  The environment supplies every
observation the function makes (canonicalization, hashing, MIME probe,
descriptor directories, `which`, the temp file's random token, the child's
exit status and what it wrote at the temp path); the recorded trace holds the
writes.  The bubblewrap argv prefix is environment plumbing no claim touches:
the trace records the templated argv and the exit status comes from the
environment either way. -/

/-- Modelled from the spec: the `ThumbnailSize` enumeration (`sizes.rs` is not
among the provided sources); spec section 3: a closed enumeration with members
Small, Normal, Large, directory name the lowercased member name, target
maximum dimensions 64 / 128 / 256. -/
inductive ThumbnailSize where
  | small
  | normal
  | large
deriving DecidableEq

/-- Modelled from the spec: the size's directory name (`to_string`). -/
def ThumbnailSize.toDirName : ThumbnailSize → String
  | .small => "small"
  | .normal => "normal"
  | .large => "large"

/-- Modelled from the spec: the size's target maximum dimension
(`to_dimension`). -/
def ThumbnailSize.toDimension : ThumbnailSize → Nat
  | .small => 64
  | .normal => 128
  | .large => 256

/-- `get_thumbnail_hash_output`:
`{cache_dir}/thumbnails/{size}/{hash}.png` (same in both crates). -/
def get_thumbnail_hash_output (base : FsPath) (hash : String) (size : ThumbnailSize) : FsPath :=
  ((base.child "thumbnails").child size.toDirName).child (hash ++ ".png")

/-- `get_failed_thumbnail_output`:
`{cache_dir}/thumbnails/fail/thumbnailify/{hash}.png` (defined in
`src/file.rs`; the thumbnailify crate's copy is not among the provided
sources and is modelled from the spec's fail-path layout with producer id
`thumbnailify`, spec section 3). -/
def get_failed_thumbnail_output (base : FsPath) (hash : String) : FsPath :=
  (((base.child "thumbnails").child "fail").child "thumbnailify").child (hash ++ ".png")

/-- The temp file name `tempfile::Builder` produces from its configured
`thumb-` and `.png.tmp` affixes around a random token. -/
def tempFileName (tok : String) : String := "thumb-" ++ tok ++ ".png.tmp"

/-- `is_thumbnail_up_to_date(thumb_path, source_path)` as the orchestrators
call it, reading the thumbnail from the filesystem and statting the source. -/
def freshAt (fs : Fs) (thumbPath : FsPath) (source : FsPath) : Bool :=
  is_thumbnail_up_to_date (fs.readPng thumbPath) (fs.metaOf source)

theorem child_parent (p : FsPath) (c : String) : (p.child c).parent = p := by
  simp [FsPath.child, FsPath.parent, List.dropLast_concat]

theorem Fs.lookup_write_self (fs : Fs) (p : FsPath) (d : FileData) :
    (fs.write p d).lookup p = some d := by
  simp [Fs.write, Fs.lookup, List.find?]

theorem tempFileName_ne_png (tok hash : String) : ¬ tempFileName tok = hash ++ ".png" := by
  intro h
  have hd : (tempFileName tok).data = (hash ++ ".png").data := congrArg String.data h
  have h1 : (tempFileName tok).data.getLast? = some 'p' := by
    simp only [tempFileName, String.data_append, List.append_assoc]
    rw [List.getLast?_append, List.getLast?_append]
    rfl
  have h2 : (hash ++ ".png").data.getLast? = some 'g' := by
    simp only [String.data_append]
    rw [List.getLast?_append]
    rfl
  rw [hd, h2] at h1
  cases h1

/-- The environment of the root crate's `generate_thumbnail`. -/
structure SrcEnv where
  cacheDir : FsPath
  canonicalize : FsPath → Option FsPath
  md5 : String → String
  mimeOf : FsPath → String
  helperDirs : List DirState
  whichOk : String → Bool
  tempToken : String
  helperExit : Bool
  helperOutput : FileData

/-- The error kinds of the root crate's `generate_thumbnail` (all are
`ThumbnailError` values; the constructors record which failure site). -/
inductive GenErr where
  | canonFail
  | uriFail
  | findIo
  | findIni
  | findMissingExec
  | noThumbnailer
  | tryExecMissing
  | cmdIo
  | cmdParse
  | emptyCommand
  | metaFail
  | helperFailed
deriving DecidableEq

def liftFindErr : FindErr → GenErr
  | .ioErr => .findIo
  | .iniErr => .findIni
  | .missingExec => .findMissingExec

def liftCmdErr : CmdErr → GenErr
  | .io => .cmdIo
  | .badParse => .cmdParse

/-- `generate_thumbnail(file, size)` of `src/thumbnailer.rs`: canonicalize,
form the URI and hash, short-circuit on a fresh fail marker, then on a fresh
positive thumbnail, discover a helper, check `TryExec`, create the temp file
in the thumbnail directory, run the templated command, and either attach
provenance to the temp and rename it over the final path, or clean up and
write the fail marker (chunk-free 1 x 1, then re-encoded with provenance).
On error exits after temp creation the temp is unlinked by the
`NamedTempFile` drop. -/
def generate_thumbnail_src (e : SrcEnv) (fs : Fs) (file : FsPath) (size : ThumbnailSize) :
    Except GenErr FsPath × List Op :=
  match e.canonicalize file with
  | none => (.error .canonFail, [])
  | some abs =>
    match get_file_uri e.canonicalize file with
    | none => (.error .uriFail, [])
    | some uri =>
      let hash := e.md5 uri
      let failPath := get_failed_thumbnail_output e.cacheDir hash
      if fs.existsb failPath && freshAt fs failPath file then
        (.ok failPath, [])
      else
        let thumbPath := get_thumbnail_hash_output e.cacheDir hash size
        if fs.existsb thumbPath && freshAt fs thumbPath file then
          (.ok thumbPath, [])
        else
          match find_thumbnailer (e.mimeOf file) e.helperDirs with
          | .error fe => (.error (liftFindErr fe), [])
          | .ok none => (.error .noThumbnailer, [])
          | .ok (some cfg) =>
            if cfg.try_exec.all e.whichOk then
              let thumbDir := thumbPath.parent
              let tempPath := thumbDir.child (tempFileName e.tempToken)
              match build_command_args (e.canonicalize file) cfg.exec_line
                  size.toDimension uri tempPath with
              | .error ce =>
                (.error (liftCmdErr ce),
                 [.mkdirAll thumbDir, .tempCreate tempPath, .removeTemp tempPath])
              | .ok [] =>
                (.error .emptyCommand,
                 [.mkdirAll thumbDir, .tempCreate tempPath, .removeTemp tempPath])
              | .ok (ex :: args) =>
                if e.helperExit then
                  match add_thumbnail_metadata (get_file_uri e.canonicalize abs)
                      (fs.metaOf abs) e.helperOutput with
                  | none =>
                    (.error .metaFail,
                     [.mkdirAll thumbDir, .tempCreate tempPath,
                      .runHelper (ex :: args), .removeTemp tempPath])
                  | some png2 =>
                    (.ok thumbPath,
                     [.mkdirAll thumbDir, .tempCreate tempPath,
                      .runHelper (ex :: args), .createWrite tempPath (.png png2),
                      .rename tempPath thumbPath])
                else
                  match add_thumbnail_metadata (get_file_uri e.canonicalize abs)
                      (fs.metaOf abs) (.png failMarkerImage) with
                  | none =>
                    (.error .metaFail,
                     [.mkdirAll thumbDir, .tempCreate tempPath,
                      .runHelper (ex :: args), .removeTemp tempPath,
                      .mkdirAll failPath.parent,
                      .createWrite failPath (.png failMarkerImage)])
                  | some png2 =>
                    (.error .helperFailed,
                     [.mkdirAll thumbDir, .tempCreate tempPath,
                      .runHelper (ex :: args), .removeTemp tempPath,
                      .mkdirAll failPath.parent,
                      .createWrite failPath (.png failMarkerImage),
                      .createWrite failPath (.png png2)])
            else (.error .tryExecMissing, [])

/-- C2 (amended): when a fail marker exists at the fail path and the
freshness validator accepts it against the source, `generate_thumbnail`
short-circuits — it records no filesystem operation and runs no helper — and
returns the fail-marker path as an `Ok` (success) result. -/
theorem c2_amended (e : SrcEnv) (fs : Fs) (file : FsPath) (size : ThumbnailSize)
    (abs : FsPath) (uri : String)
    (hcanon : e.canonicalize file = some abs)
    (huri : get_file_uri e.canonicalize file = some uri)
    (hfail : fs.existsb (get_failed_thumbnail_output e.cacheDir (e.md5 uri)) = true)
    (hfresh : freshAt fs (get_failed_thumbnail_output e.cacheDir (e.md5 uri)) file = true) :
    generate_thumbnail_src e fs file size =
      (.ok (get_failed_thumbnail_output e.cacheDir (e.md5 uri)), []) := by
  simp [generate_thumbnail_src, hcanon, huri, hfail, hfresh]

/-- The concrete environment for C2: the cache base `/c`, a source `/s/a.png`
that canonicalizes to itself, and a fresh fail marker on disk. -/
def c2Env : SrcEnv :=
  ⟨⟨true, ["c"]⟩,
   (fun p => if p = ⟨true, ["s", "a.png"]⟩ then some ⟨true, ["s", "a.png"]⟩ else none),
   (fun _ => "h"), (fun _ => "image/png"), [], (fun _ => false), "t", false, .empty⟩

def c2Fs : Fs :=
  ⟨[(⟨true, ["c", "thumbnails", "fail", "thumbnailify", "h.png"]⟩,
     .png ⟨1, 1, [(0, 0, 0, 0)], [⟨"Thumb::MTime", "5"⟩]⟩)],
   fun p => if p = ⟨true, ["s", "a.png"]⟩ then some ⟨some 5, 9⟩ else none⟩

/-- C2 (counterexample): with a fresh fail marker on disk the function
returns `Ok(fail_path)` — a success result carrying the fail-marker path, not
a typed negative error (no `NegativeCached`-like variant exists in the error
type at all), refuting the claim that the short-circuit surfaces a typed
negative error result. -/
theorem c2_counterexample :
    generate_thumbnail_src c2Env c2Fs ⟨true, ["s", "a.png"]⟩ .normal =
      (.ok ⟨true, ["c", "thumbnails", "fail", "thumbnailify", "h.png"]⟩, []) := by
  decide

/-- C2 witness: the amended statement applied to the concrete environment. -/
theorem c2_amended_witness :
    generate_thumbnail_src c2Env c2Fs ⟨true, ["s", "a.png"]⟩ .normal =
      (.ok (get_failed_thumbnail_output c2Env.cacheDir (c2Env.md5 "file:///s/a.png")), []) :=
  c2_amended c2Env c2Fs ⟨true, ["s", "a.png"]⟩ .normal ⟨true, ["s", "a.png"]⟩
    "file:///s/a.png" (by decide) (by decide) (by decide) (by decide)

/-- C3 (amended): the EXTERNAL-helper orchestrator of the root crate keeps
the atomic-commit discipline: every rename in its trace moves the temp file
to a destination in the same directory, and no `File::create`-style write in
the trace ever targets a rename destination (the final thumbnail path) — but
this invariant does not extend to the in-process batch path
(`create_thumbnails`), which writes the final path in place (see the
counterexample). -/
theorem c3_amended (e : SrcEnv) (fs : Fs) (file : FsPath) (size : ThumbnailSize) :
    ∀ src dst p c, Op.rename src dst ∈ (generate_thumbnail_src e fs file size).2 →
      Op.createWrite p c ∈ (generate_thumbnail_src e fs file size).2 →
      src.parent = dst.parent ∧ ¬ p = dst := by
  simp only [generate_thumbnail_src]
  repeat' split
  all_goals intro src dst p c hrn hcw
  all_goals simp only [List.mem_cons, List.not_mem_nil, or_false, List.mem_singleton] at hrn
  all_goals try simp at hrn
  obtain ⟨hsrc, hdst⟩ := hrn
  subst hsrc
  subst hdst
  constructor
  · rw [child_parent]
  · simp only [List.mem_cons, List.not_mem_nil, or_false] at hcw
    simp at hcw
    obtain ⟨hp, _⟩ := hcw
    subst hp
    intro heq
    rw [get_thumbnail_hash_output, child_parent] at heq
    have hcomp := congrArg FsPath.components heq
    simp only [FsPath.child] at hcomp
    have hlast := List.append_cancel_left hcomp
    simp only [List.cons.injEq, and_true] at hlast
    exact tempFileName_ne_png _ _ hlast

/-- The concrete environment for the C3 witness: a helper run that succeeds,
so the trace contains both the temp-file write and the final rename. -/
def c3Env : SrcEnv :=
  ⟨⟨true, ["c"]⟩,
   (fun p => if p = ⟨true, ["s", "a.pdf"]⟩ then some ⟨true, ["s", "a.pdf"]⟩ else none),
   (fun _ => "h"), (fun _ => "application/pdf"),
   [.entries [⟨"a.thumbnailer", some [("Thumbnailer Entry",
      [("MimeType", "application/pdf;"), ("Exec", "conv %i %o")])]⟩]],
   (fun _ => true), "t", true, .png ⟨1, 1, [(0, 0, 0, 0)], []⟩⟩

def c3Fs : Fs :=
  ⟨[], fun p => if p = ⟨true, ["s", "a.pdf"]⟩ then some ⟨some 5, 9⟩ else none⟩

/-- C3 witness: on the successful helper run, the recorded rename moves the
sibling temp file over the final path and the only in-place write targets the
temp file, not the final path. -/
theorem c3_amended_witness :
    (⟨true, ["c", "thumbnails", "normal", "thumb-t.png.tmp"]⟩ : FsPath).parent =
      (⟨true, ["c", "thumbnails", "normal", "h.png"]⟩ : FsPath).parent ∧
    ¬ (⟨true, ["c", "thumbnails", "normal", "thumb-t.png.tmp"]⟩ : FsPath) =
      ⟨true, ["c", "thumbnails", "normal", "h.png"]⟩ :=
  c3_amended c3Env c3Fs ⟨true, ["s", "a.pdf"]⟩ .normal
    ⟨true, ["c", "thumbnails", "normal", "thumb-t.png.tmp"]⟩
    ⟨true, ["c", "thumbnails", "normal", "h.png"]⟩
    ⟨true, ["c", "thumbnails", "normal", "thumb-t.png.tmp"]⟩
    (.png ⟨1, 1, [(0, 0, 0, 0)],
      [⟨"Software", "Thumbnailify"⟩, ⟨"Thumb::URI", "file:///s/a.pdf"⟩,
       ⟨"Thumb::Size", "9"⟩, ⟨"Thumb::MTime", "5"⟩]⟩)
    (by decide) (by decide)

/-! ## The in-process batch path (thumbnailify crate)

`create_thumbnails(input, sizes)` of `thumbnailify/src/thumbnail.rs`: form
the URI, hash it (through the panicking `compute_hash`), short-circuit on a
fresh fail marker, select the stale sizes, decode once, and write each
thumbnail DIRECTLY at its final path with `File::create` inside
`write_out_thumbnail` — there is no temp file and no rename on this path. -/

/-- The environment of `create_thumbnails`: canonicalization for strings,
the hash, source metadata by path string, the one-shot decode result of
`parse_file`, and the out-of-scope resampler. -/
structure TfyEnv where
  cacheDir : FsPath
  canonStr : String → Option FsPath
  md5 : String → String
  metaOfStr : String → Option Meta
  parsed : Option PngFile
  resample : PngFile → Nat → Nat → List (Nat × Nat × Nat × Nat)

/-- Error kinds of `create_thumbnails` (each a `ThumbnailError`). -/
inductive TErr where
  | uriFail
  | metaFail
  | imageFail
deriving DecidableEq

/-- The observable outcome: the `expect` panic inside `compute_hash`, `Ok`,
or a typed error. -/
inductive TOut where
  | panicked
  | okUnit
  | err (e : TErr)
deriving DecidableEq

/-- The per-size loop of `create_thumbnails`: resize and write at the FINAL
path, or write the fail marker and continue; a writer error aborts. -/
def create_loop (e : TfyEnv) (img : PngFile) (uriOfInput : Option String)
    (metaInput : Option Meta) (hash : String) (failPath : FsPath) :
    List ThumbnailSize → TOut × List Op
  | [] => (.okUnit, [])
  | s :: rest =>
    match generate_thumbnail_img e.resample img s.toDimension with
    | some thumb =>
      match write_out_thumbnail_tfy uriOfInput metaInput thumb with
      | none => (.err .metaFail, [.mkdirAll (get_thumbnail_hash_output e.cacheDir hash s).parent])
      | some png =>
        let r := create_loop e img uriOfInput metaInput hash failPath rest
        (r.1, .mkdirAll (get_thumbnail_hash_output e.cacheDir hash s).parent ::
          .createWrite (get_thumbnail_hash_output e.cacheDir hash s) (.png png) :: r.2)
    | none =>
      match write_failed_thumbnail_with_dynamic_image uriOfInput metaInput with
      | none => (.err .metaFail, [.mkdirAll failPath.parent])
      | some fpng =>
        let r := create_loop e img uriOfInput metaInput hash failPath rest
        (r.1, .mkdirAll failPath.parent :: .createWrite failPath (.png fpng) :: r.2)

/-- `create_thumbnails(input, sizes)`. -/
def create_thumbnails (e : TfyEnv) (fs : Fs) (input : String) (sizes : List ThumbnailSize) :
    TOut × List Op :=
  match get_file_uri_str e.canonStr input with
  | none => (.err .uriFail, [])
  | some uri =>
    match compute_hash e.canonStr e.md5 uri with
    | none => (.panicked, [])
    | some hash =>
      let failPath := get_failed_thumbnail_output e.cacheDir hash
      if fs.existsb failPath &&
          is_thumbnail_up_to_date (fs.readPng failPath) (e.metaOfStr input) then
        (.okUnit, [])
      else
        let toUpdate := sizes.filter (fun s =>
          ¬ (fs.existsb (get_thumbnail_hash_output e.cacheDir hash s) &&
             is_thumbnail_up_to_date
               (fs.readPng (get_thumbnail_hash_output e.cacheDir hash s))
               (e.metaOfStr input)))
        if toUpdate.isEmpty then (.okUnit, [])
        else
          match e.parsed with
          | none =>
            match write_failed_thumbnail_with_dynamic_image
                (get_file_uri_str e.canonStr input) (e.metaOfStr input) with
            | none => (.err .metaFail, [.mkdirAll failPath.parent])
            | some fpng =>
              (.err .imageFail,
               [.mkdirAll failPath.parent, .createWrite failPath (.png fpng)])
          | some img =>
            create_loop e img (get_file_uri_str e.canonStr input) (e.metaOfStr input)
              hash failPath toUpdate

/-- The concrete environment for the C3 counterexample: a decodable 1 x 1
source at `/s/a.png` (the URI string canonicalizes through a directory
literally named `file:`, keeping `compute_hash` on its non-panicking branch),
an empty cache. -/
def c3TfyEnv : TfyEnv :=
  ⟨⟨true, ["c"]⟩,
   (fun s => if s = "/s/a.png" then some ⟨true, ["s", "a.png"]⟩
     else if s = "file:///s/a.png" then some ⟨true, ["f"]⟩ else none),
   (fun _ => "h"),
   (fun s => if s = "/s/a.png" then some ⟨some 7, 42⟩ else none),
   some ⟨1, 1, [(1, 2, 3, 4)], []⟩,
   (fun _ _ _ => [])⟩

def c3TfyFs : Fs := ⟨[], fun _ => none⟩

theorem c3_dims_eval : generate_thumbnail_dims 1 1 128 = some (128, 128) := by
  simp [generate_thumbnail_dims, roundHalfUp]
  norm_num
  rfl

theorem c3_img_eval : generate_thumbnail_img c3TfyEnv.resample ⟨1, 1, [(1, 2, 3, 4)], []⟩
    (ThumbnailSize.toDimension .normal) = some ⟨128, 128, [], []⟩ := by
  simp [generate_thumbnail_img, ThumbnailSize.toDimension, c3_dims_eval, c3TfyEnv]

theorem c3_loop_eval :
    create_loop c3TfyEnv ⟨1, 1, [(1, 2, 3, 4)], []⟩ (some "file:///s/a.png")
      (some ⟨some 7, 42⟩) "h" (get_failed_thumbnail_output c3TfyEnv.cacheDir "h") [.normal] =
    (.okUnit,
     [.mkdirAll ⟨true, ["c", "thumbnails", "normal"]⟩,
      .createWrite (get_thumbnail_hash_output c3TfyEnv.cacheDir "h" .normal)
        (.png ⟨128, 128, [],
          [⟨"Software", "Thumbnailify"⟩, ⟨"Thumb::URI", "file:///s/a.png"⟩,
           ⟨"Thumb::Size", "42"⟩, ⟨"Thumb::MTime", "7"⟩]⟩)]) := by
  unfold create_loop
  rw [c3_img_eval]
  decide

/-- C3 (counterexample): a successful in-process generation whose trace
creates the file at the FINAL thumbnail path by an in-place
`File::create` write — no temp file, no rename appears in the trace —
refuting the claim that the file at the final path is only ever created by an
atomic rename of a temp file from the same directory. -/
theorem c3_counterexample :
    create_thumbnails c3TfyEnv c3TfyFs "/s/a.png" [.normal] =
      (.okUnit,
       [.mkdirAll ⟨true, ["c", "thumbnails", "normal"]⟩,
        .createWrite (get_thumbnail_hash_output c3TfyEnv.cacheDir "h" .normal)
          (.png ⟨128, 128, [],
            [⟨"Software", "Thumbnailify"⟩, ⟨"Thumb::URI", "file:///s/a.png"⟩,
             ⟨"Thumb::Size", "42"⟩, ⟨"Thumb::MTime", "7"⟩]⟩)]) := by
  have hstep : create_thumbnails c3TfyEnv c3TfyFs "/s/a.png" [.normal] =
      create_loop c3TfyEnv ⟨1, 1, [(1, 2, 3, 4)], []⟩ (some "file:///s/a.png")
        (some ⟨some 7, 42⟩) "h" (get_failed_thumbnail_output c3TfyEnv.cacheDir "h")
        [.normal] := rfl
  rw [hstep, c3_loop_eval]

/-! ## The external-helper orchestrator of the thumbnailify crate

`generate_thumbnail` of `thumbnailify/src/thumbnailer.rs`: no fail-marker
consultation, whitespace-only templating, and on a nonzero helper exit the
fail marker is created with a bare `fs::File::create(&fail_marker)` — an
empty file, not a PNG. -/

/-- The environment of the thumbnailify crate's `generate_thumbnail`. -/
structure XEnv where
  cacheDir : FsPath
  canonStr : String → Option FsPath
  canonPath : FsPath → Option FsPath
  md5 : String → String
  mimeOf : FsPath → String
  dirs : List DirState
  whichOk : String → Bool
  tempToken : String
  helperExit : Bool
  metaOfStr : String → Option Meta

/-- Error kinds of the thumbnailify crate's `generate_thumbnail`
(`io::Error` values; constructors record the failure site). -/
inductive XErr where
  | canonFail
  | uriFail
  | findIo
  | findIni
  | findMissingExec
  | noThumbnailer
  | tryExecMissing
  | emptyCommand
  | helperFailed
deriving DecidableEq

/-- The observable outcome, including the `compute_hash` panic. -/
inductive XOut where
  | panicked
  | okPath (p : FsPath)
  | err (e : XErr)
deriving DecidableEq

/-- `generate_thumbnail(file, size)` of `thumbnailify/src/thumbnailer.rs`. -/
def generate_thumbnail_tfy (e : XEnv) (fs : Fs) (file : FsPath) (size : ThumbnailSize) :
    XOut × List Op :=
  match e.canonPath file with
  | none => (.err .canonFail, [])
  | some abs =>
    match get_file_uri_str e.canonStr (pathToString abs) with
    | none => (.err .uriFail, [])
    | some uri =>
      match compute_hash e.canonStr e.md5 uri with
      | none => (.panicked, [])
      | some hash =>
        let thumbPath := get_thumbnail_hash_output e.cacheDir hash size
        if fs.existsb thumbPath &&
            is_thumbnail_up_to_date (fs.readPng thumbPath) (e.metaOfStr (pathToString abs)) then
          (.okPath thumbPath, [])
        else
          match find_thumbnailer (e.mimeOf file) e.dirs with
          | .error .ioErr => (.err .findIo, [])
          | .error .iniErr => (.err .findIni, [])
          | .error .missingExec => (.err .findMissingExec, [])
          | .ok none => (.err .noThumbnailer, [])
          | .ok (some cfg) =>
            if cfg.try_exec.all e.whichOk then
              let thumbDir := thumbPath.parent
              let tempPath := thumbDir.child (tempFileName e.tempToken)
              match build_command_args_tfy cfg.exec_line size.toDimension uri file tempPath with
              | [] =>
                (.err .emptyCommand,
                 [.mkdirAll thumbDir, .tempCreate tempPath, .removeTemp tempPath])
              | ex :: args =>
                if e.helperExit then
                  (.okPath thumbPath,
                   [.mkdirAll thumbDir, .tempCreate tempPath,
                    .runHelper (ex :: args), .rename tempPath thumbPath])
                else
                  (.err .helperFailed,
                   [.mkdirAll thumbDir, .tempCreate tempPath,
                    .runHelper (ex :: args), .removeTemp tempPath,
                    .mkdirAll (get_failed_thumbnail_output e.cacheDir hash).parent,
                    .createEmpty (get_failed_thumbnail_output e.cacheDir hash)])
            else (.err .tryExecMissing, [])

/-- The concrete environment for the C4 counterexample: a PDF source whose
helper exits nonzero. -/
def c4Env : XEnv :=
  ⟨⟨true, ["c"]⟩,
   (fun s => if s = "/s/a.pdf" then some ⟨true, ["s", "a.pdf"]⟩
     else if s = "file:///s/a.pdf" then some ⟨true, ["f"]⟩ else none),
   (fun p => if p = ⟨true, ["s", "a.pdf"]⟩ then some ⟨true, ["s", "a.pdf"]⟩ else none),
   (fun _ => "h"), (fun _ => "application/pdf"),
   [.entries [⟨"a.thumbnailer", some [("Thumbnailer Entry",
      [("MimeType", "application/pdf;"), ("Exec", "conv %i %o")])]⟩]],
   (fun _ => true), "t", false,
   (fun s => if s = "/s/a.pdf" then some ⟨some 5, 9⟩ else none)⟩

def c4Fs : Fs := ⟨[], fun _ => none⟩

/-- C4 (counterexample): when the helper exits nonzero, the thumbnailify
crate's `generate_thumbnail` creates the artifact at the fail path with a
bare `fs::File::create` — after replaying the trace the fail path holds an
EMPTY file, not a decodable PNG, so it carries neither the 1 x 1 transparent
raster nor any provenance chunk. -/
theorem c4_counterexample :
    (generate_thumbnail_tfy c4Env c4Fs ⟨true, ["s", "a.pdf"]⟩ .normal).1
        = .err .helperFailed ∧
    (applyOps c4Fs (generate_thumbnail_tfy c4Env c4Fs ⟨true, ["s", "a.pdf"]⟩ .normal).2).lookup
        (get_failed_thumbnail_output c4Env.cacheDir "h") = some .empty ∧
    (applyOps c4Fs (generate_thumbnail_tfy c4Env c4Fs ⟨true, ["s", "a.pdf"]⟩ .normal).2).readPng
        (get_failed_thumbnail_output c4Env.cacheDir "h") = none := by
  refine ⟨by decide, by decide, by decide⟩

/-- C4 (amended): in the ROOT crate, whenever the helper exits nonzero the
artifact left at the fail path
`{cache}/thumbnails/fail/thumbnailify/{hash}.png` is the 1 x 1 fully
transparent RGBA8 PNG re-encoded with the `Software` chunk and all three
provenance chunks (`Thumb::URI`, `Thumb::MTime`, `Thumb::Size`) computed from
the source file; the thumbnailify crate's external path instead leaves an
empty file (see the counterexample), and its decode-failure path goes through
`write_failed_thumbnail_with_dynamic_image`, which is not among the provided
sources and is modelled from the spec as the same chunked 1 x 1 marker. -/
theorem c4_amended (e : SrcEnv) (fs : Fs) (file : FsPath) (size : ThumbnailSize)
    (abs : FsPath) (uri uri2 : String) (cfg : ThumbnailerConfig)
    (ex : String) (args : List String) (m : Meta) (t : Int)
    (hcanon : e.canonicalize file = some abs)
    (huri : get_file_uri e.canonicalize file = some uri)
    (hnofail : (fs.existsb (get_failed_thumbnail_output e.cacheDir (e.md5 uri)) &&
      freshAt fs (get_failed_thumbnail_output e.cacheDir (e.md5 uri)) file) = false)
    (hnothumb : (fs.existsb (get_thumbnail_hash_output e.cacheDir (e.md5 uri) size) &&
      freshAt fs (get_thumbnail_hash_output e.cacheDir (e.md5 uri) size) file) = false)
    (hfind : find_thumbnailer (e.mimeOf file) e.helperDirs = .ok (some cfg))
    (htry : cfg.try_exec.all e.whichOk = true)
    (hbuild : build_command_args (e.canonicalize file) cfg.exec_line size.toDimension uri
      ((get_thumbnail_hash_output e.cacheDir (e.md5 uri) size).parent.child
        (tempFileName e.tempToken)) = .ok (ex :: args))
    (hexit : e.helperExit = false)
    (huri2 : get_file_uri e.canonicalize abs = some uri2)
    (hmeta : fs.metaOf abs = some m)
    (hmod : m.modified = some t) :
    (generate_thumbnail_src e fs file size).1 = .error .helperFailed ∧
    (applyOps fs (generate_thumbnail_src e fs file size).2).lookup
        (get_failed_thumbnail_output e.cacheDir (e.md5 uri))
      = some (.png ⟨1, 1, [(0, 0, 0, 0)], provenanceChunks uri2 m t⟩) ∧
    findChunk (provenanceChunks uri2 m t) "Thumb::URI" = some uri2 ∧
    findChunk (provenanceChunks uri2 m t) "Thumb::Size" = some (natDec m.len) ∧
    findChunk (provenanceChunks uri2 m t) "Thumb::MTime" = some (natDec (epochSecs t)) := by
  have hops : generate_thumbnail_src e fs file size =
      (.error .helperFailed,
       [.mkdirAll (get_thumbnail_hash_output e.cacheDir (e.md5 uri) size).parent,
        .tempCreate ((get_thumbnail_hash_output e.cacheDir (e.md5 uri) size).parent.child
          (tempFileName e.tempToken)),
        .runHelper (ex :: args),
        .removeTemp ((get_thumbnail_hash_output e.cacheDir (e.md5 uri) size).parent.child
          (tempFileName e.tempToken)),
        .mkdirAll (get_failed_thumbnail_output e.cacheDir (e.md5 uri)).parent,
        .createWrite (get_failed_thumbnail_output e.cacheDir (e.md5 uri))
          (.png failMarkerImage),
        .createWrite (get_failed_thumbnail_output e.cacheDir (e.md5 uri))
          (.png ⟨1, 1, [(0, 0, 0, 0)], provenanceChunks uri2 m t⟩)]) := by
    rw [hcanon] at hbuild
    simp only [generate_thumbnail_src, hcanon, huri, hnofail, hnothumb, hfind, htry,
      hbuild, hexit, huri2, hmeta, Bool.false_eq_true, if_false, if_true]
    simp [add_thumbnail_metadata, hmod, failMarkerImage]
  refine ⟨by rw [hops], ?_, ?_, ?_, ?_⟩
  · rw [hops]
    simp only [applyOps, List.foldl, applyOp]
    exact Fs.lookup_write_self _ _ _
  · simp [provenanceChunks, findChunk, List.find?]
  · simp [provenanceChunks, findChunk, List.find?]
  · simp [provenanceChunks, findChunk, List.find?]

/-- The concrete environment for the C4 witness: same PDF source with
failing helper, in the root crate. -/
def c4SrcEnv : SrcEnv :=
  ⟨⟨true, ["c"]⟩,
   (fun p => if p = ⟨true, ["s", "a.pdf"]⟩ then some ⟨true, ["s", "a.pdf"]⟩ else none),
   (fun _ => "h"), (fun _ => "application/pdf"),
   [.entries [⟨"a.thumbnailer", some [("Thumbnailer Entry",
      [("MimeType", "application/pdf;"), ("Exec", "conv %i %o")])]⟩]],
   (fun _ => true), "t", false, .empty⟩

def c4SrcFs : Fs :=
  ⟨[], fun p => if p = ⟨true, ["s", "a.pdf"]⟩ then some ⟨some 5, 9⟩ else none⟩

/-- C4 witness: the amended statement applied to the concrete failing run. -/
theorem c4_amended_witness :
    (generate_thumbnail_src c4SrcEnv c4SrcFs ⟨true, ["s", "a.pdf"]⟩ .normal).1
        = .error .helperFailed ∧
    (applyOps c4SrcFs
        (generate_thumbnail_src c4SrcEnv c4SrcFs ⟨true, ["s", "a.pdf"]⟩ .normal).2).lookup
        (get_failed_thumbnail_output c4SrcEnv.cacheDir (c4SrcEnv.md5 "file:///s/a.pdf"))
      = some (.png ⟨1, 1, [(0, 0, 0, 0)],
          provenanceChunks "file:///s/a.pdf" ⟨some 5, 9⟩ 5⟩) ∧
    findChunk (provenanceChunks "file:///s/a.pdf" ⟨some 5, 9⟩ 5) "Thumb::URI"
        = some "file:///s/a.pdf" ∧
    findChunk (provenanceChunks "file:///s/a.pdf" ⟨some 5, 9⟩ 5) "Thumb::Size"
        = some (natDec (Meta.len ⟨some 5, 9⟩)) ∧
    findChunk (provenanceChunks "file:///s/a.pdf" ⟨some 5, 9⟩ 5) "Thumb::MTime"
        = some (natDec (epochSecs 5)) :=
  c4_amended c4SrcEnv c4SrcFs ⟨true, ["s", "a.pdf"]⟩ .normal ⟨true, ["s", "a.pdf"]⟩
    "file:///s/a.pdf" "file:///s/a.pdf" ⟨none, "conv %i %o", ["application/pdf"]⟩
    "conv" ["/s/a.pdf", "/c/thumbnails/normal/thumb-t.png.tmp"] ⟨some 5, 9⟩ 5
    (by decide) (by decide) (by decide) (by decide) (by decide) (by decide)
    (by decide) (by decide) (by decide) (by decide) (by decide)
